import Mathlib

/-!
Shallow embedding of `generate_mock_data.py`, the mock decision-log generator
of this repository, together with proofs about the embedded functions.

Modelling conventions:

* Python floats are modelled exactly: as rationals (`ℚ`) wherever the source
  only performs field arithmetic and comparisons, and as real numbers (`ℝ`)
  where the source calls `math.sin` / `math.exp` / `math.pi`.
* Python's `round(x, d)` is modelled by `roundTo d x = ⌊x·10^d + 1/2⌋ / 10^d`
  (round half up).  CPython rounds halves to even; the two agree except at
  exact ties, and no statement below depends on tie behaviour.
* Calls to the global `random` stream (`random.random`, `random.uniform`,
  `random.gauss`, `random.choice`, `random.sample`, `random.choices`,
  `random.randint`) are modelled by explicit oracle records (`PosRand`,
  `DecRand`) and noise functions: each field holds the value (for `choice` /
  `sample`, the chosen element or an arbitrary index reduced modulo the pool
  size) that the corresponding call returns, so each theorem quantifies over
  every possible sequence of draws.
* Python's rendering of numbers inside f-string log lines is abstracted by
  `toString` on `ℚ`; no claim depends on the decimal rendering of a number
  inside a log string.
* The price dictionary is modelled as a total function `String → ℚ`; in the
  program every symbol that is ever looked up is a key of the dictionary
  built from `COIN_PRICES_BASE`, so `dict.get(coin, 100)`'s default branch is
  unreachable there.
-/

namespace MockData

/-! ### Rounding -/

/-- Python's `round(x, d)`: scale by `10^d`, round to the nearest integer,
and scale back.  (Half-way cases: see the module docstring.) -/
def roundTo {α : Type} [LinearOrderedField α] [FloorRing α] (d : ℕ) (x : α) : α :=
  ((⌊x * 10 ^ d + 1 / 2⌋ : ℤ) : α) / 10 ^ d

theorem roundTo_eq_round {α : Type} [LinearOrderedField α] [FloorRing α] (d : ℕ) (x : α) :
    roundTo d x = ((round (x * 10 ^ d) : ℤ) : α) / 10 ^ d := by
  rw [roundTo, round_eq]

/-- Rounding to `d` decimal places moves a value by at most half an ulp. -/
theorem abs_roundTo_sub {α : Type} [LinearOrderedField α] [FloorRing α] (d : ℕ) (x : α) :
    |roundTo d x - x| ≤ 1 / (2 * 10 ^ d) := by
  have h10 : (0 : α) < 10 ^ d := by positivity
  have h : |(((round (x * 10 ^ d) : ℤ) : α)) - x * 10 ^ d| ≤ 1 / 2 := by
    rw [abs_sub_comm]; exact abs_sub_round (x * 10 ^ d)
  rw [roundTo_eq_round]
  have heq : ((round (x * 10 ^ d) : ℤ) : α) / 10 ^ d - x
      = (((round (x * 10 ^ d) : ℤ) : α) - x * 10 ^ d) / 10 ^ d := by
    field_simp
    ring
  rw [heq, abs_div, abs_of_pos h10]
  calc |((round (x * 10 ^ d) : ℤ) : α) - x * 10 ^ d| / 10 ^ d
      ≤ (1 / 2) / 10 ^ d := by gcongr
    _ = 1 / (2 * 10 ^ d) := by ring

theorem roundTo_le {α : Type} [LinearOrderedField α] [FloorRing α] (d : ℕ) (x : α) :
    roundTo d x ≤ x + 1 / (2 * 10 ^ d) := by
  have h := (abs_le.mp (abs_roundTo_sub d x)).2
  linarith

theorem le_roundTo {α : Type} [LinearOrderedField α] [FloorRing α] (d : ℕ) (x : α) :
    x - 1 / (2 * 10 ^ d) ≤ roundTo d x := by
  have h := (abs_le.mp (abs_roundTo_sub d x)).1
  linarith

/-- A value that is an integer multiple of `10^(-d)` is a fixed point of
`roundTo d`. -/
theorem roundTo_int_div {α : Type} [LinearOrderedField α] [FloorRing α] (d : ℕ) (n : ℤ) :
    roundTo d ((n : α) / 10 ^ d) = (n : α) / 10 ^ d := by
  have h10 : (10 : α) ^ d ≠ 0 := by positivity
  have hx : ((n : α) / 10 ^ d) * 10 ^ d = (n : α) := by field_simp
  rw [roundTo, hx]
  have : ⌊(n : α) + 1 / 2⌋ = n := by
    rw [Int.floor_int_add]
    norm_num
  rw [this]

/-- Conversely, a fixed point of `roundTo d` is an integer multiple of
`10^(-d)`. -/
theorem exists_int_of_roundTo_eq {α : Type} [LinearOrderedField α] [FloorRing α] (d : ℕ)
    (x : α) (h : roundTo d x = x) : ∃ n : ℤ, x = (n : α) / 10 ^ d :=
  ⟨⌊x * 10 ^ d + 1 / 2⌋, h.symm⟩

/-! ### `smooth_curve`

```python
def smooth_curve(values, window=5):
    result = list(values)
    for i in range(window, len(result) - window):
        result[i] = sum(values[i-window:i+window+1]) / (2*window + 1)
    return result
```
-/

/-- The centered moving-average smoother.  The loop updates `result` in place
while always reading the slice from the original `values`. -/
def smooth_curve {α : Type} [Field α] (values : List α) (window : ℕ) : List α :=
  (List.range' window (values.length - window - window)).foldl
    (fun result i =>
      result.set i ((((values.drop (i - window)).take (2 * window + 1)).sum) / (2 * window + 1)))
    values

theorem foldl_set_length {α : Type} (f : ℕ → α) (L : List ℕ) (acc : List α) :
    (L.foldl (fun r i => r.set i (f i)) acc).length = acc.length := by
  induction L generalizing acc with
  | nil => rfl
  | cons a L ih => simp [List.foldl_cons, ih, List.length_set]

theorem getD_set {α : Type} (l : List α) (i j : ℕ) (x d : α) :
    (l.set i x).getD j d = if i = j ∧ j < l.length then x else l.getD j d := by
  rw [List.getD_eq_getElem?_getD, List.getD_eq_getElem?_getD, List.getElem?_set]
  by_cases hij : i = j
  · subst hij
    by_cases hlen : i < l.length
    · simp [hlen]
    · simp only [if_pos rfl, if_neg hlen, hlen, and_false, if_false, Option.getD_none]
      rw [List.getElem?_eq_none (by omega)]
      simp
  · simp [hij]

theorem foldl_set_getD {α : Type} (f : ℕ → α) (L : List ℕ) (acc : List α) (j : ℕ) (d : α) :
    (L.foldl (fun r i => r.set i (f i)) acc).getD j d
      = if j ∈ L ∧ j < acc.length then f j else acc.getD j d := by
  induction L generalizing acc with
  | nil => simp
  | cons a L ih =>
    rw [List.foldl_cons, ih, List.length_set, getD_set]
    by_cases hj : j < acc.length
    · by_cases hL : j ∈ L
      · simp [hL, hj]
      · by_cases hja : j = a
        · subst hja
          simp [hL, hj]
        · have hmem : ¬ j ∈ a :: L := by
            simp [List.mem_cons, hL, hja]
          have haj : ¬ a = j := fun h => hja h.symm
          simp [hL, hj, hmem, haj]
    · simp [hj]

/-- When the list has no interior points (length at most `2·window`) the
smoother leaves it unchanged — in particular for the length-2 lists used in
the point-count edge cases below. -/
theorem smooth_curve_of_no_interior {α : Type} [Field α] (values : List α) (window : ℕ)
    (h : values.length - window - window = 0) : smooth_curve values window = values := by
  simp [smooth_curve, h]

/-! ### Static configuration tables -/

/-- `COIN_PRICES_BASE` from the source (prices as exact rationals). -/
def COIN_PRICES_BASE : List (String × ℚ) :=
  [("BTCUSDT", 105000), ("ETHUSDT", 3300), ("SOLUSDT", 260), ("BNBUSDT", 700),
   ("DOGEUSDT", 35 / 100), ("XRPUSDT", 280 / 100), ("ADAUSDT", 95 / 100), ("HYPEUSDT", 45)]

def CANDIDATE_COINS : List String :=
  ["BTCUSDT", "ETHUSDT", "SOLUSDT", "BNBUSDT", "DOGEUSDT", "XRPUSDT", "ADAUSDT", "HYPEUSDT"]

def INITIAL_BALANCE : ℝ := 10000

/-! ### Data model -/

inductive Side where
  | long : Side
  | short : Side
deriving DecidableEq, Repr

/-- The string stored in the position dict's `side` field. -/
def sideStr : Side → String
  | Side.long => "long"
  | Side.short => "short"

/-- `pos['side'].upper()` in the close-branch log line. -/
def sideUpper : Side → String
  | Side.long => "LONG"
  | Side.short => "SHORT"

/-- One open position, with the exact fields of the dicts built in
`generate_positions`. -/
structure Position where
  symbol : String
  side : Side
  entry_price : ℚ
  mark_price : ℚ
  quantity : ℚ
  leverage : ℚ
  unrealized_pnl : ℚ
  margin : ℚ
deriving DecidableEq, Repr

instance : Inhabited Position :=
  ⟨⟨"", Side.long, 0, 0, 0, 0, 0, 0⟩⟩

/-- One decision dict as built in `generate_decisions`. -/
structure Decision where
  action : String
  symbol : String
  quantity : ℚ
  leverage : ℚ
  price : ℚ
  order_id : ℕ
  timestamp : String
  success : Bool
  error : String
deriving DecidableEq, Repr

/-- The `account_state` block of a record. -/
structure AccountState where
  total_balance : ℚ
  available_balance : ℚ
  total_unrealized_profit : ℚ
  position_count : ℕ
  margin_used_pct : ℚ
deriving DecidableEq, Repr

/-- One decision-log record (Snapshot) as assembled by `create_record`. -/
structure Record where
  timestamp : String
  cycle_number : ℕ
  system_prompt : String
  input_prompt : String
  cot_trace : String
  decision_json : String
  account_state : AccountState
  positions : Option (List Position)
  candidate_coins : List String
  decisions : List Decision
  execution_log : List String
  success : Bool
  error_message : String
  ai_request_duration_ms : ℕ

/-! ### `generate_positions`

Oracle for the random draws consumed by one call.  Per-position draws are
indexed by the position's index in the sampled coin list; `coins` is the
result of the branch's `random.sample(...)` call, and index-valued fields
model `random.choice` over a finite pool (the index is reduced modulo the
pool size, exactly the range the library draws from). -/

structure PosRand where
  /-- the `random.random()` gate that decides whether any positions exist -/
  gate : ℚ
  /-- the coin list produced by `random.sample` (including its length draw) -/
  coins : List String
  /-- index for gpt5's `random.choice(["BTCUSDT", "ETHUSDT"])` -/
  coinPick : ℕ
  /-- `random.uniform(...)` entry offset for position `j` -/
  offset : ℕ → ℚ
  /-- grok4's `random.random()` long/short draw for position `j` -/
  dirDraw : ℕ → ℚ
  /-- index for `random.choice(["long", "short"])` for position `j` -/
  dirPick : ℕ → ℕ
  /-- index for the leverage `random.choice(...)` for position `j` -/
  levPick : ℕ → ℕ
  /-- `random.uniform(...)` notional size draw for position `j` -/
  size : ℕ → ℚ

/-- `generate_positions(trader_type, balance, step, total_steps, coin_prices)`.
The source also computes `t = step / total_steps` but never uses it, and it
never uses `balance`; both parameters are kept for fidelity. -/
def generate_positions (trader_type : String) (balance : ℚ) (step total_steps : ℕ)
    (coin_prices : String → ℚ) (r : PosRand) : List Position :=
  if trader_type = "grok4" then
    if r.gate < 55 / 100 then
      r.coins.enum.map (fun jc =>
        let j := jc.1
        let coin := jc.2
        let entry_price := coin_prices coin * (1 + r.offset j)
        let current_price := coin_prices coin
        let leverage : ℚ := [3, 5].getD (r.levPick j % 2) 3
        let direction := if r.dirDraw j < 75 / 100 then Side.long else Side.short
        let size_usd := r.size j
        let qty := roundTo 3 (size_usd / entry_price)
        let unrealized := (if direction = Side.long then current_price - entry_price
          else entry_price - current_price) * qty
        { symbol := coin, side := direction,
          entry_price := roundTo 2 entry_price, mark_price := roundTo 2 current_price,
          quantity := qty, leverage := leverage,
          unrealized_pnl := roundTo 2 unrealized, margin := roundTo 2 (size_usd / leverage) })
    else []
  else if trader_type = "gpt5" then
    if r.gate < 35 / 100 then
      let coin := ["BTCUSDT", "ETHUSDT"].getD (r.coinPick % 2) "BTCUSDT"
      let entry_price := coin_prices coin * (1 + r.offset 0)
      let current_price := coin_prices coin
      let leverage : ℚ := [2, 3].getD (r.levPick 0 % 2) 2
      let size_usd := r.size 0
      let qty := roundTo 3 (size_usd / entry_price)
      let unrealized := (current_price - entry_price) * qty
      [{ symbol := coin, side := Side.long,
         entry_price := roundTo 2 entry_price, mark_price := roundTo 2 current_price,
         quantity := qty, leverage := leverage,
         unrealized_pnl := roundTo 2 unrealized, margin := roundTo 2 (size_usd / leverage) }]
    else []
  else if trader_type = "gemini" then
    if r.gate < 65 / 100 then
      r.coins.enum.map (fun jc =>
        let j := jc.1
        let coin := jc.2
        let entry_price := coin_prices coin * (1 + r.offset j)
        let current_price := coin_prices coin
        let leverage : ℚ := [2, 3].getD (r.levPick j % 2) 2
        let direction := [Side.long, Side.short].getD (r.dirPick j % 2) Side.long
        let size_usd := r.size j
        -- `decimals = 4 if coin_prices[coin] < 1 else (3 if coin_prices[coin] < 100 else 3)`
        let decimals : ℕ := if coin_prices coin < 1 then 4
          else if coin_prices coin < 100 then 3 else 3
        let qty := roundTo decimals (size_usd / entry_price)
        let unrealized := (if direction = Side.long then current_price - entry_price
          else entry_price - current_price) * qty
        let price_decimals : ℕ := if coin_prices coin < 1 then 6 else 2
        { symbol := coin, side := direction,
          entry_price := roundTo price_decimals entry_price,
          mark_price := roundTo price_decimals current_price,
          quantity := qty, leverage := leverage,
          unrealized_pnl := roundTo 2 unrealized, margin := roundTo 2 (size_usd / leverage) })
    else []
  else if trader_type = "deepseek" then
    if r.gate < 45 / 100 then
      r.coins.enum.map (fun jc =>
        let j := jc.1
        let coin := jc.2
        let entry_price := coin_prices coin * (1 + r.offset j)
        let current_price := coin_prices coin
        let leverage : ℚ := if coin = "BTCUSDT" ∨ coin = "ETHUSDT" then
            [3, 5].getD (r.levPick j % 2) 3
          else [2, 3].getD (r.levPick j % 2) 2
        let direction := [Side.long, Side.short].getD (r.dirPick j % 2) Side.long
        let size_usd := r.size j
        let qty := roundTo 3 (size_usd / entry_price)
        let unrealized := (if direction = Side.long then current_price - entry_price
          else entry_price - current_price) * qty
        { symbol := coin, side := direction,
          entry_price := roundTo 2 entry_price, mark_price := roundTo 2 current_price,
          quantity := qty, leverage := leverage,
          unrealized_pnl := roundTo 2 unrealized, margin := roundTo 2 (size_usd / leverage) })
    else []
  else []

/-- The unrealized P&L recomputed from the stored (rounded) fields of a
position: `(mark - entry) * qty` for a long, `(entry - mark) * qty` for a
short. -/
def pnl_from_fields (p : Position) : ℚ :=
  (if p.side = Side.long then p.mark_price - p.entry_price
   else p.entry_price - p.mark_price) * p.quantity

/-- Internal consistency of one generated position: the stored
`unrealized_pnl` agrees with the value recomputed from the stored prices,
quantity and side up to the rounding applied when the fields were stored,
and the stored `margin` is the rounded quotient `notional / leverage` of a
notional that agrees with `entry_price * quantity` up to the same
roundings. -/
def position_consistent (p : Position) : Prop :=
  |p.unrealized_pnl - pnl_from_fields p| ≤ 1 / 200 + |p.quantity| / 100 ∧
  ∃ notional : ℚ, p.margin = roundTo 2 (notional / p.leverage) ∧
    |notional - p.entry_price * p.quantity| ≤ (p.entry_price + 1) / 2000 + |p.quantity| / 200

theorem pow_ten_bound (d c : ℕ) (h : c ≤ d) : (1 : ℚ) / (2 * 10 ^ d) ≤ 1 / (2 * 10 ^ c) := by
  have h1 : (10 : ℚ) ^ c ≤ 10 ^ d := pow_le_pow_right₀ (by norm_num) h
  have h2 : (0 : ℚ) < 2 * 10 ^ c := by positivity
  exact one_div_le_one_div_of_le h2 (by linarith)

theorem abs_round2_mul_bound (a b : ℚ) (h : |a - b| ≤ 1 / 100) (q : ℚ) :
    |roundTo 2 (a * q) - b * q| ≤ 1 / 200 + |q| / 100 := by
  have h3 : |roundTo 2 (a * q) - a * q| ≤ 1 / 200 := by
    have := abs_roundTo_sub 2 (a * q)
    norm_num at this
    linarith
  have hmid : |a * q - b * q| ≤ |q| / 100 := by
    have heq : a * q - b * q = (a - b) * q := by ring
    rw [heq, abs_mul]
    calc |a - b| * |q| ≤ (1 / 100) * |q| := mul_le_mul_of_nonneg_right h (abs_nonneg q)
      _ = |q| / 100 := by ring
  have := abs_sub_le (roundTo 2 (a * q)) (a * q) (b * q)
  linarith

/-- Every position built by any branch of `generate_positions` has the shape
`⟨coin, dir, round(e), round(m), round(s/e), lev, round(pnl), round(s/lev)⟩`;
this lemma proves the consistency property once for that shape. -/
theorem position_core (coin : String) (e m s lev : ℚ) (dir : Side) (qd pd : ℕ)
    (he : 0 < e) (hqd : 3 ≤ qd) (hpd : 2 ≤ pd) :
    position_consistent
      { symbol := coin, side := dir,
        entry_price := roundTo pd e, mark_price := roundTo pd m,
        quantity := roundTo qd (s / e), leverage := lev,
        unrealized_pnl :=
          roundTo 2 ((if dir = Side.long then m - e else e - m) * roundTo qd (s / e)),
        margin := roundTo 2 (s / lev) } := by
  have hpd' : (1 : ℚ) / (2 * 10 ^ pd) ≤ 1 / 200 := by
    have := pow_ten_bound pd 2 hpd
    norm_num at this ⊢
    linarith
  have hqd' : (1 : ℚ) / (2 * 10 ^ qd) ≤ 1 / 2000 := by
    have := pow_ten_bound qd 3 hqd
    norm_num at this ⊢
    linarith
  set q : ℚ := roundTo qd (s / e) with hqdef
  have h1 : |roundTo pd e - e| ≤ 1 / 200 := (abs_roundTo_sub pd e).trans hpd'
  have h2 : |roundTo pd m - m| ≤ 1 / 200 := (abs_roundTo_sub pd m).trans hpd'
  have hq4 : |q - s / e| ≤ 1 / 2000 := (abs_roundTo_sub qd (s / e)).trans hqd'
  constructor
  · -- unrealized P&L consistency
    cases dir with
    | long =>
      have hd : |(m - e) - (roundTo pd m - roundTo pd e)| ≤ 1 / 100 := by
        have hc : |m - roundTo pd m| = |roundTo pd m - m| := abs_sub_comm _ _
        have hc' : |e - roundTo pd e| = |roundTo pd e - e| := abs_sub_comm _ _
        have := abs_sub (m - roundTo pd m) (e - roundTo pd e)
        have heq : (m - e) - (roundTo pd m - roundTo pd e)
            = (m - roundTo pd m) - (e - roundTo pd e) := by ring
        rw [heq]
        rw [hc, hc'] at this
        linarith
      have := abs_round2_mul_bound (m - e) (roundTo pd m - roundTo pd e) hd q
      simpa [pnl_from_fields] using this
    | short =>
      have hd : |(e - m) - (roundTo pd e - roundTo pd m)| ≤ 1 / 100 := by
        have hc : |m - roundTo pd m| = |roundTo pd m - m| := abs_sub_comm _ _
        have hc' : |e - roundTo pd e| = |roundTo pd e - e| := abs_sub_comm _ _
        have := abs_sub (e - roundTo pd e) (m - roundTo pd m)
        have heq : (e - m) - (roundTo pd e - roundTo pd m)
            = (e - roundTo pd e) - (m - roundTo pd m) := by ring
        rw [heq]
        rw [hc, hc'] at this
        linarith
      have := abs_round2_mul_bound (e - m) (roundTo pd e - roundTo pd m) hd q
      simpa [pnl_from_fields] using this
  · -- margin consistency, with the branch's notional draw as witness
    refine ⟨s, rfl, ?_⟩
    have hse : |s - e * q| ≤ e / 2000 := by
      have hne : e ≠ 0 := ne_of_gt he
      have heq : s - e * q = e * (s / e - q) := by field_simp
      rw [heq, abs_mul, abs_of_pos he]
      have habs : |s / e - q| ≤ 1 / 2000 := by rw [abs_sub_comm]; exact hq4
      calc e * |s / e - q| ≤ e * (1 / 2000) := mul_le_mul_of_nonneg_left habs he.le
        _ = e / 2000 := by ring
    have heq' : |e * q - roundTo pd e * q| ≤ |q| / 200 := by
      have heq : e * q - roundTo pd e * q = (e - roundTo pd e) * q := by ring
      rw [heq, abs_mul]
      have h1' : |e - roundTo pd e| ≤ 1 / 200 := by rw [abs_sub_comm]; exact h1
      calc |e - roundTo pd e| * |q| ≤ (1 / 200) * |q| :=
            mul_le_mul_of_nonneg_right h1' (abs_nonneg q)
        _ = |q| / 200 := by ring
    have hsum := abs_sub_le s (e * q) (roundTo pd e * q)
    have he' : e ≤ roundTo pd e + 1 / 200 := by
      have := (abs_le.mp h1).1
      linarith
    simp only []
    linarith

/-- C2.  Every Position returned by `generate_positions` — for any trader
archetype, balance, step and price surface, and any sequence of random
draws with positive prices and offsets above −100% (the source draws
offsets from subranges of (−0.04, 0.025)) — stores an `unrealized_pnl`
equal to `(mark − entry)·qty` (long) or `(entry − mark)·qty` (short) up to
the rounding applied when the fields were stored, and a `margin` equal to
the rounded quotient of its notional size by its leverage, the notional
agreeing with `entry_price · quantity` up to the same roundings. -/
theorem generate_positions_pnl_margin_consistent (trader_type : String) (balance : ℚ)
    (step total_steps : ℕ) (coin_prices : String → ℚ) (r : PosRand)
    (hp : ∀ c, 0 < coin_prices c) (hoff : ∀ j, -1 < r.offset j) :
    ∀ p ∈ generate_positions trader_type balance step total_steps coin_prices r,
      position_consistent p := by
  intro p hmem
  have hent : ∀ (j : ℕ) (coin : String), 0 < coin_prices coin * (1 + r.offset j) :=
    fun j coin => mul_pos (hp coin) (by linarith [hoff j])
  unfold generate_positions at hmem
  split at hmem
  · -- grok4
    split at hmem
    · rw [List.mem_map] at hmem
      obtain ⟨jc, hjc, rfl⟩ := hmem
      exact position_core jc.2 (coin_prices jc.2 * (1 + r.offset jc.1)) (coin_prices jc.2)
        (r.size jc.1) ([3, 5].getD (r.levPick jc.1 % 2) 3)
        (if r.dirDraw jc.1 < 75 / 100 then Side.long else Side.short) 3 2
        (hent jc.1 jc.2) (by norm_num) (by norm_num)
    · simp at hmem
  · split at hmem
    · -- gpt5
      split at hmem
      · rw [List.mem_singleton] at hmem
        subst hmem
        exact position_core (["BTCUSDT", "ETHUSDT"].getD (r.coinPick % 2) "BTCUSDT")
          (coin_prices (["BTCUSDT", "ETHUSDT"].getD (r.coinPick % 2) "BTCUSDT")
            * (1 + r.offset 0))
          (coin_prices (["BTCUSDT", "ETHUSDT"].getD (r.coinPick % 2) "BTCUSDT"))
          (r.size 0) ([2, 3].getD (r.levPick 0 % 2) 2) Side.long 3 2
          (hent 0 _) (by norm_num) (by norm_num)
      · simp at hmem
    · split at hmem
      · -- gemini
        split at hmem
        · rw [List.mem_map] at hmem
          obtain ⟨jc, hjc, rfl⟩ := hmem
          exact position_core jc.2 (coin_prices jc.2 * (1 + r.offset jc.1)) (coin_prices jc.2)
            (r.size jc.1) ([2, 3].getD (r.levPick jc.1 % 2) 2)
            ([Side.long, Side.short].getD (r.dirPick jc.1 % 2) Side.long)
            (if coin_prices jc.2 < 1 then 4 else if coin_prices jc.2 < 100 then 3 else 3)
            (if coin_prices jc.2 < 1 then 6 else 2)
            (hent jc.1 jc.2)
            (by split
                · norm_num
                · split <;> norm_num)
            (by split <;> norm_num)
        · simp at hmem
      · split at hmem
        · -- deepseek
          split at hmem
          · rw [List.mem_map] at hmem
            obtain ⟨jc, hjc, rfl⟩ := hmem
            exact position_core jc.2 (coin_prices jc.2 * (1 + r.offset jc.1))
              (coin_prices jc.2) (r.size jc.1)
              (if jc.2 = "BTCUSDT" ∨ jc.2 = "ETHUSDT" then
                [3, 5].getD (r.levPick jc.1 % 2) 3
               else [2, 3].getD (r.levPick jc.1 % 2) 2)
              ([Side.long, Side.short].getD (r.dirPick jc.1 % 2) Side.long) 3 2
              (hent jc.1 jc.2) (by norm_num) (by norm_num)
          · simp at hmem
        · simp at hmem

/-- A concrete draw oracle used to exercise `generate_positions`. -/
def exPosRand : PosRand :=
  { gate := 0, coins := ["BTCUSDT"], coinPick := 0, offset := fun _ => 0,
    dirDraw := fun _ => 0, dirPick := fun _ => 0, levPick := fun _ => 0,
    size := fun _ => 50000 }

/-- The position that `generate_positions "grok4"` produces from `exPosRand`
with all prices equal to 100. -/
def exPosition : Position :=
  { symbol := "BTCUSDT", side := Side.long, entry_price := 100, mark_price := 100,
    quantity := 500, leverage := 3, unrealized_pnl := 0, margin := 1666667 / 100 }

theorem exPosition_mem :
    exPosition ∈ generate_positions "grok4" 10000 0 720 (fun _ => 100) exPosRand := by
  have : generate_positions "grok4" 10000 0 720 (fun _ => 100) exPosRand = [exPosition] := by
    norm_num [generate_positions, exPosRand, exPosition, roundTo, List.enum, Position.mk.injEq]
  rw [this]
  exact List.mem_singleton.mpr rfl

/-- Witness for C2: the consistency property holds at the concrete position
`exPosition` produced by `generate_positions` at a concrete input. -/
theorem generate_positions_pnl_margin_consistent_witness :
    position_consistent exPosition :=
  generate_positions_pnl_margin_consistent "grok4" 10000 0 720 (fun _ => 100) exPosRand
    (fun _ => by norm_num) (fun _ => by norm_num [exPosRand]) exPosition exPosition_mem

/-! ### `generate_decisions` -/

/-- Oracle for the random draws consumed by one `generate_decisions` call
(and the `random.randint` duration draw of the enclosing `create_record`).
Index-valued fields model `random.choice` / weighted `random.choices` over a
finite pool: the index is reduced modulo the pool size, exactly the range of
indices the library can return. -/
structure DecRand where
  /-- the first `random.random()`, compared against the action probability -/
  gate : ℚ
  /-- the `random.random()` choosing close vs open on the trade branch -/
  branchDraw : ℚ
  /-- index for `random.choice(positions)` -/
  posPick : ℕ
  /-- index for `random.choice(["wait", "hold"])` -/
  waitHoldPick : ℕ
  /-- index for `random.choice(reasons)` -/
  reasonPick : ℕ
  /-- index for the open branch's coin choice -/
  coinPick : ℕ
  /-- `random.uniform(-0.002, 0.002)` slippage draw -/
  slippage : ℚ
  /-- the `random.random()` long/short draw -/
  dirDraw : ℚ
  /-- index for the leverage `random.choice(...)` -/
  levPick : ℕ
  /-- `random.uniform(...)` notional size draw -/
  sizeDraw : ℚ
  /-- `random.randint(100000, 999999)` order id -/
  orderId : ℕ
  /-- offset for `random.randint(lo, hi)` in `create_record`'s duration draw -/
  durDraw : ℕ

/-- `action_probs.get(trader_type, 0.15)`. -/
def action_probs (trader_type : String) : ℚ :=
  if trader_type = "grok4" then 22 / 100
  else if trader_type = "gpt5" then 10 / 100
  else if trader_type = "gemini" then 32 / 100
  else if trader_type = "deepseek" then 18 / 100
  else 15 / 100

/-- The fixed pool of rationale strings of the no-trade branch. -/
def reasons : List String :=
  ["No high-confidence setup found",
   "RSI near oversold, waiting for confirmation",
   "Trend unclear, maintaining positions",
   "Waiting for breakout confirmation",
   "Market consolidating, holding",
   "Risk-reward not favorable",
   "Indicators conflicting, staying out",
   "Volatility too low for entry",
   "4h EMA20 ≈ EMA50, no clear trend",
   "KEMAD and ZeroLag not aligned"]

/-- `dir_map.get(trader_type, (0.5, [3], [2]))`: long probability, leverage
pool for BTC/ETH, leverage pool for alts. -/
def dir_map (trader_type : String) : ℚ × List ℚ × List ℚ :=
  if trader_type = "grok4" then (72 / 100, [3, 5], [3, 5])
  else if trader_type = "gpt5" then (82 / 100, [2, 3], [2, 3])
  else if trader_type = "gemini" then (1 / 2, [2, 3], [2, 3])
  else if trader_type = "deepseek" then (55 / 100, [3, 5], [2, 3])
  else (1 / 2, [3], [2])

/-- Abstract rendering of a number inside an f-string log line (Python's
float formatting is not modelled; no claim depends on it). -/
def qstr (q : ℚ) : String := toString q

/-- `f"+{pnl:.2f}" if pnl >= 0 else f"{pnl:.2f}"`, with the numeric
rendering abstracted by `qstr`. -/
def pnl_str (pnl : ℚ) : String := if 0 ≤ pnl then "+" ++ qstr pnl else qstr pnl

/-- `generate_decisions(trader_type, positions, coin_prices)`: one wait/hold,
close or open decision plus one execution-log line. -/
def generate_decisions (trader_type : String) (positions : List Position)
    (coin_prices : String → ℚ) (r : DecRand) : List Decision × List String :=
  if r.gate > action_probs trader_type then
    let action_type := ["wait", "hold"].getD (r.waitHoldPick % 2) "wait"
    ([{ action := action_type, symbol := "ALL", quantity := 0, leverage := 0, price := 0,
        order_id := 0, timestamp := "", success := true, error := "" }],
     ["✓ ALL " ++ action_type ++ " — " ++ reasons.getD (r.reasonPick % 10) ""])
  else if positions ≠ [] ∧ r.branchDraw < 2 / 5 then
    let pos := positions.getD (r.posPick % positions.length) default
    ([{ action := "close_" ++ sideStr pos.side, symbol := pos.symbol,
        quantity := pos.quantity, leverage := pos.leverage, price := pos.mark_price,
        order_id := r.orderId, timestamp := "", success := true, error := "" }],
     ["Closed " ++ sideUpper pos.side ++ " " ++ pos.symbol ++ " @ " ++ qstr pos.mark_price
       ++ " (PnL: " ++ pnl_str pos.unrealized_pnl ++ " USDT)"])
  else
    let coin :=
      if trader_type = "gemini" then
        ["SOLUSDT", "BTCUSDT", "ETHUSDT", "DOGEUSDT", "BNBUSDT", "XRPUSDT"].getD
          (r.coinPick % 6) ""
      else if trader_type = "grok4" ∨ trader_type = "gpt5" then
        ["BTCUSDT", "ETHUSDT", "SOLUSDT"].getD (r.coinPick % 3) ""
      else
        ["BTCUSDT", "ETHUSDT", "SOLUSDT", "BNBUSDT"].getD (r.coinPick % 4) ""
    let price := coin_prices coin
    let price_with_slippage := price * (1 + r.slippage)
    let dm := dir_map trader_type
    let direction := if r.dirDraw < dm.1 then "open_long" else "open_short"
    let levlist := if coin = "BTCUSDT" ∨ coin = "ETHUSDT" then dm.2.1 else dm.2.2
    let leverage := levlist.getD (r.levPick % levlist.length) 0
    let size_usd := r.sizeDraw
    let qty := if price > 1000 then roundTo 3 (size_usd / price_with_slippage)
      else if price > 1 then roundTo 2 (size_usd / price_with_slippage)
      else roundTo 0 (size_usd / price_with_slippage)
    let price_dec : ℕ := if price < 1 then 6 else 2
    ([{ action := direction, symbol := coin, quantity := qty, leverage := leverage,
        price := roundTo price_dec price_with_slippage, order_id := r.orderId,
        timestamp := "", success := true, error := "" }],
     ["Opened " ++ (if direction = "open_long" then "LONG" else "SHORT") ++ " " ++ coin
       ++ " x" ++ qstr leverage ++ " @ " ++ qstr (roundTo price_dec price_with_slippage)
       ++ " (" ++ qstr (roundTo 0 size_usd) ++ " USDT)"])

/-- C10.  On every branch and for every archetype, open-position list, price
surface and draw sequence, `generate_decisions` emits exactly one Decision
and exactly one execution-log line. -/
theorem generate_decisions_single_decision_and_log (trader_type : String)
    (positions : List Position) (coin_prices : String → ℚ) (r : DecRand) :
    (generate_decisions trader_type positions coin_prices r).1.length = 1 ∧
    (generate_decisions trader_type positions coin_prices r).2.length = 1 := by
  unfold generate_decisions
  split
  · exact ⟨rfl, rfl⟩
  · split
    · exact ⟨rfl, rfl⟩
    · exact ⟨rfl, rfl⟩

/-- C8.  Every Decision emitted by any branch of `generate_decisions` has
`success = true` and an empty `error` field. -/
theorem generate_decisions_always_success (trader_type : String) (positions : List Position)
    (coin_prices : String → ℚ) (r : DecRand) :
    (generate_decisions trader_type positions coin_prices r).1.all
      (fun d => d.success && (d.error == "")) = true := by
  unfold generate_decisions
  split
  · rfl
  · split
    · rfl
    · rfl

/-- C6.  Whenever the close branch is taken (gate draw not above the action
probability, a non-empty position list, and close draw below 0.4), the
emitted Decision is `close_<side>` of one member of the current
open-position list, at that member's mark price, quantity and leverage, and
exactly one log line is emitted.  In particular no symbol, quantity or price
outside the open-position list is referenced. -/
theorem generate_decisions_close_branch_from_open_positions (trader_type : String)
    (positions : List Position) (coin_prices : String → ℚ) (r : DecRand)
    (hg : ¬ r.gate > action_probs trader_type) (hpos : positions ≠ [])
    (hb : r.branchDraw < 2 / 5) :
    ∃ pos ∈ positions,
      (generate_decisions trader_type positions coin_prices r).1 =
        [{ action := "close_" ++ sideStr pos.side, symbol := pos.symbol,
           quantity := pos.quantity, leverage := pos.leverage, price := pos.mark_price,
           order_id := r.orderId, timestamp := "", success := true, error := "" }] ∧
      (generate_decisions trader_type positions coin_prices r).2.length = 1 := by
  refine ⟨positions.getD (r.posPick % positions.length) default, ?_, ?_, ?_⟩
  · have hlen : 0 < positions.length := List.length_pos.mpr hpos
    have hlt : r.posPick % positions.length < positions.length := Nat.mod_lt _ hlen
    rw [List.getD_eq_getElem _ _ hlt]
    exact List.getElem_mem hlt
  · unfold generate_decisions
    rw [if_neg hg, if_pos ⟨hpos, hb⟩]
  · unfold generate_decisions
    rw [if_neg hg, if_pos ⟨hpos, hb⟩]
    rfl

/-- A concrete draw oracle that forces the close branch. -/
def exDecRand : DecRand :=
  { gate := 0, branchDraw := 0, posPick := 0, waitHoldPick := 0, reasonPick := 0,
    coinPick := 0, slippage := 0, dirDraw := 0, levPick := 0, sizeDraw := 0,
    orderId := 123456, durDraw := 0 }

/-- Witness for C6 at a concrete input. -/
theorem generate_decisions_close_branch_witness :
    ∃ pos ∈ [exPosition],
      (generate_decisions "grok4" [exPosition] (fun _ => 100) exDecRand).1 =
        [{ action := "close_" ++ sideStr pos.side, symbol := pos.symbol,
           quantity := pos.quantity, leverage := pos.leverage, price := pos.mark_price,
           order_id := exDecRand.orderId, timestamp := "", success := true, error := "" }] ∧
      (generate_decisions "grok4" [exPosition] (fun _ => 100) exDecRand).2.length = 1 :=
  generate_decisions_close_branch_from_open_positions "grok4" [exPosition] (fun _ => 100)
    exDecRand (by norm_num [action_probs, exDecRand]) (by simp) (by norm_num [exDecRand])

/-- C7.  Whenever the no-trade branch is taken (gate draw above the action
probability), `generate_decisions` emits exactly one Decision whose action
is `wait` or `hold`, whose symbol is `"ALL"`, whose quantity, leverage and
price are zero and whose success flag is true, paired with exactly one log
line built from a member of the fixed `reasons` pool. -/
theorem generate_decisions_no_trade_branch (trader_type : String) (positions : List Position)
    (coin_prices : String → ℚ) (r : DecRand)
    (hg : r.gate > action_probs trader_type) :
    ∃ a reason, (a = "wait" ∨ a = "hold") ∧ reason ∈ reasons ∧
      (generate_decisions trader_type positions coin_prices r).1 =
        [{ action := a, symbol := "ALL", quantity := 0, leverage := 0, price := 0,
           order_id := 0, timestamp := "", success := true, error := "" }] ∧
      (generate_decisions trader_type positions coin_prices r).2 =
        ["✓ ALL " ++ a ++ " — " ++ reason] := by
  refine ⟨["wait", "hold"].getD (r.waitHoldPick % 2) "wait",
    reasons.getD (r.reasonPick % 10) "", ?_, ?_, ?_, ?_⟩
  · rcases hmod : r.waitHoldPick % 2 with _ | k
    · left; rfl
    · cases k with
      | zero => right; rfl
      | succ k => left; rfl
  · have h10 : r.reasonPick % 10 < 10 := Nat.mod_lt _ (by norm_num)
    have hlen : r.reasonPick % 10 < reasons.length := by
      simpa [reasons] using h10
    rw [List.getD_eq_getElem _ _ hlen]
    exact List.getElem_mem hlen
  · unfold generate_decisions
    rw [if_pos hg]
  · unfold generate_decisions
    rw [if_pos hg]

/-- A concrete draw oracle that forces the no-trade branch. -/
def exDecRandWait : DecRand :=
  { gate := 1, branchDraw := 0, posPick := 0, waitHoldPick := 0, reasonPick := 0,
    coinPick := 0, slippage := 0, dirDraw := 0, levPick := 0, sizeDraw := 0,
    orderId := 0, durDraw := 0 }

/-- Witness for C7 at a concrete input. -/
theorem generate_decisions_no_trade_branch_witness :
    ∃ a reason, (a = "wait" ∨ a = "hold") ∧ reason ∈ reasons ∧
      (generate_decisions "grok4" [] (fun _ => 100) exDecRandWait).1 =
        [{ action := a, symbol := "ALL", quantity := 0, leverage := 0, price := 0,
           order_id := 0, timestamp := "", success := true, error := "" }] ∧
      (generate_decisions "grok4" [] (fun _ => 100) exDecRandWait).2 =
        ["✓ ALL " ++ a ++ " — " ++ reason] :=
  generate_decisions_no_trade_branch "grok4" [] (fun _ => 100) exDecRandWait
    (by norm_num [action_probs, exDecRandWait])

/-! ### `create_record` -/

/-- `dur_ranges.get(trader_type, (3000, 8000))`. -/
def dur_ranges (trader_type : String) : ℕ × ℕ :=
  if trader_type = "grok4" then (2000, 8000)
  else if trader_type = "gpt5" then (3000, 12000)
  else if trader_type = "gemini" then (2500, 10000)
  else if trader_type = "deepseek" then (4000, 15000)
  else (3000, 8000)

/-- `create_record(timestamp, cycle_num, trader_type, balance, positions,
coin_prices)`: assembles one decision-log record.  The `random.randint(lo,
hi)` duration draw is modelled as `lo + durDraw % (hi - lo + 1)`, the exact
range of values the library call can return. -/
def create_record (timestamp : String) (cycle_num : ℕ) (trader_type : String) (balance : ℚ)
    (positions : List Position) (coin_prices : String → ℚ) (r : DecRand) : Record :=
  let unrealized := (positions.map (fun p => p.unrealized_pnl)).sum
  let total_margin := (positions.map (fun p => p.margin)).sum
  let available := max (balance - total_margin) 0
  let margin_pct := if balance > 0 then roundTo 1 (total_margin / balance * 100) else 0
  let margin_pct := min margin_pct 90
  let dec := generate_decisions trader_type positions coin_prices r
  let decisions := dec.1.map (fun d => { d with timestamp := timestamp })
  let lohi := dur_ranges trader_type
  let ai_duration := lohi.1 + r.durDraw % (lohi.2 - lohi.1 + 1)
  { timestamp := timestamp, cycle_number := cycle_num, system_prompt := "",
    input_prompt := "", cot_trace := "", decision_json := "",
    account_state :=
      { total_balance := roundTo 2 balance,
        available_balance := roundTo 2 available,
        total_unrealized_profit := roundTo 2 unrealized,
        position_count := positions.length,
        margin_used_pct := margin_pct },
    positions := if positions ≠ [] then some positions else none,
    candidate_coins := CANDIDATE_COINS,
    decisions := decisions,
    execution_log := ("AI调用耗时: " ++ toString ai_duration ++ " ms") :: dec.2,
    success := true, error_message := "", ai_request_duration_ms := ai_duration }

/-- A sum of margins that are all 2-decimal values is a 2-decimal value. -/
theorem margin_sum_int (positions : List Position)
    (hm : ∀ p ∈ positions, roundTo 2 p.margin = p.margin) :
    ∃ n : ℤ, (positions.map (fun p => p.margin)).sum = (n : ℚ) / 100 := by
  induction positions with
  | nil => exact ⟨0, by simp⟩
  | cons q l ih =>
    obtain ⟨n, hn⟩ := ih (fun p hp => hm p (List.mem_cons_of_mem q hp))
    obtain ⟨a, ha⟩ := exists_int_of_roundTo_eq 2 q.margin (hm q (List.mem_cons_self q l))
    refine ⟨a + n, ?_⟩
    rw [List.map_cons, List.sum_cons, hn, ha]
    push_cast
    norm_num
    ring

theorem roundTo_two_fix (x : ℚ) (h : ∃ n : ℤ, x = (n : ℚ) / 100) : roundTo 2 x = x := by
  obtain ⟨n, rfl⟩ := h
  have := roundTo_int_div (α := ℚ) 2 n
  norm_num at this ⊢
  exact this

/-- C1 (amended).  The account-state block of every record is recomputable
from the record's own balance and position list: `available_balance` is
exactly `max(total_balance − Σ margin, 0)` whenever the balance and the
margins carry at most two decimals (as every value produced by the pipeline
does), and `margin_used_pct` is `min(round(100·Σ margin / balance, 1), 90)`
for positive balance — the percentage is rounded to ONE decimal place
before the 90 cap is applied. -/
theorem create_record_account_state_amended (timestamp : String) (cycle_num : ℕ)
    (trader_type : String) (balance : ℚ) (positions : List Position)
    (coin_prices : String → ℚ) (r : DecRand)
    (hb : roundTo 2 balance = balance)
    (hm : ∀ p ∈ positions, roundTo 2 p.margin = p.margin)
    (hbpos : 0 < balance) :
    (create_record timestamp cycle_num trader_type balance positions
        coin_prices r).account_state.available_balance
      = max ((create_record timestamp cycle_num trader_type balance positions
          coin_prices r).account_state.total_balance
        - (positions.map (fun p => p.margin)).sum) 0 ∧
    (create_record timestamp cycle_num trader_type balance positions
        coin_prices r).account_state.margin_used_pct
      = min (roundTo 1 (100 * (positions.map (fun p => p.margin)).sum
        / (create_record timestamp cycle_num trader_type balance positions
            coin_prices r).account_state.total_balance)) 90 := by
  obtain ⟨nb, hnb⟩ := exists_int_of_roundTo_eq 2 balance hb
  obtain ⟨nm, hnm⟩ := margin_sum_int positions hm
  have htb : (create_record timestamp cycle_num trader_type balance positions
      coin_prices r).account_state.total_balance = balance := by
    simp only [create_record]
    exact hb
  constructor
  · have hav : (create_record timestamp cycle_num trader_type balance positions
        coin_prices r).account_state.available_balance
        = roundTo 2 (max (balance - (positions.map (fun p => p.margin)).sum) 0) := by
      simp only [create_record]
    rw [hav, htb]
    rcases le_total (balance - (positions.map (fun p => p.margin)).sum) 0 with hle | hle
    · rw [max_eq_right hle]
      exact roundTo_two_fix 0 ⟨0, by norm_num⟩
    · rw [max_eq_left hle]
      refine roundTo_two_fix _ ⟨nb - nm, ?_⟩
      rw [hnb, hnm]
      push_cast
      ring
  · have hmp : (create_record timestamp cycle_num trader_type balance positions
        coin_prices r).account_state.margin_used_pct
        = min (roundTo 1 ((positions.map (fun p => p.margin)).sum / balance * 100)) 90 := by
      simp only [create_record, if_pos hbpos]
    rw [hmp, htb]
    have : (positions.map (fun p => p.margin)).sum / balance * 100
        = 100 * (positions.map (fun p => p.margin)).sum / balance := by
      ring
    rw [this]

/-- The concrete position used in the C1 counterexample and witness: one
open position whose margin is `1234.56`. -/
def cxPosition : Position :=
  { symbol := "BTCUSDT", side := Side.long, entry_price := 105000, mark_price := 105000,
    quantity := 1, leverage := 3, unrealized_pnl := 0, margin := 123456 / 100 }

/-- Counterexample to C1 as stated: with balance 10000 and one position of
margin 1234.56 the stored `margin_used_pct` is `round(12.3456, 1) = 12.3`,
not the claimed `min(100·Σ margin / balance, 90) = 12.3456`. -/
theorem create_record_margin_pct_counterexample :
    (create_record "" 1 "grok4" 10000 [cxPosition] (fun _ => 100)
        exDecRand).account_state.margin_used_pct
      ≠ min (100 * (([cxPosition] : List Position).map (fun p => p.margin)).sum / 10000) 90 := by
  simp only [create_record, cxPosition, List.map_cons, List.map_nil, List.sum_cons,
    List.sum_nil]
  norm_num [roundTo]

/-- Witness for the amended C1 at a concrete input. -/
theorem create_record_account_state_amended_witness :
    (create_record "" 1 "grok4" 10000 [cxPosition] (fun _ => 100)
        exDecRand).account_state.available_balance
      = max ((create_record "" 1 "grok4" 10000 [cxPosition] (fun _ => 100)
          exDecRand).account_state.total_balance
        - (([cxPosition] : List Position).map (fun p => p.margin)).sum) 0 ∧
    (create_record "" 1 "grok4" 10000 [cxPosition] (fun _ => 100)
        exDecRand).account_state.margin_used_pct
      = min (roundTo 1 (100 * (([cxPosition] : List Position).map (fun p => p.margin)).sum
        / (create_record "" 1 "grok4" 10000 [cxPosition] (fun _ => 100)
            exDecRand).account_state.total_balance)) 90 :=
  create_record_account_state_amended "" 1 "grok4" 10000 [cxPosition] (fun _ => 100) exDecRand
    (by norm_num [roundTo])
    (by
      intro p hp
      rw [List.mem_singleton] at hp
      subst hp
      norm_num [cxPosition, roundTo])
    (by norm_num)

/-- C9.  The moving-average smoother preserves length; indices `i` with
`window ≤ i < length − window` hold the centered average of the `2·window+1`
input values around `i`, and all other indices (the first and last `window`
elements) hold the raw input values. -/
theorem smooth_curve_centered_average_with_raw_edges (values : List ℚ) (window i : ℕ) :
    (smooth_curve values window).length = values.length ∧
    (window ≤ i → i + window < values.length →
      (smooth_curve values window).getD i 0
        = (((values.drop (i - window)).take (2 * window + 1)).sum) / (2 * window + 1)) ∧
    (i < window ∨ values.length ≤ i + window →
      (smooth_curve values window).getD i 0 = values.getD i 0) := by
  refine ⟨foldl_set_length _ _ _, ?_, ?_⟩
  · intro h1 h2
    rw [smooth_curve, foldl_set_getD, if_pos]
    refine ⟨?_, by omega⟩
    rw [List.mem_range'_1]
    omega
  · intro h
    rw [smooth_curve, foldl_set_getD, if_neg]
    rintro ⟨hmem, _⟩
    rw [List.mem_range'_1] at hmem
    omega

/-- Witness for C9: a centered average in the interior and a raw value at
the edge, on a concrete input. -/
theorem smooth_curve_centered_average_with_raw_edges_witness :
    (smooth_curve ([10, 20, 30, 40] : List ℚ) 1).getD 1 0
        = (((([10, 20, 30, 40] : List ℚ).drop (1 - 1)).take (2 * 1 + 1)).sum)
          / (2 * (1 : ℕ) + 1) ∧
    (smooth_curve ([10, 20, 30, 40] : List ℚ) 1).getD 0 0
        = ([10, 20, 30, 40] : List ℚ).getD 0 0 :=
  ⟨(smooth_curve_centered_average_with_raw_edges [10, 20, 30, 40] 1 1).2.1
      (by norm_num) (by norm_num),
   (smooth_curve_centered_average_with_raw_edges [10, 20, 30, 40] 1 0).2.2
      (Or.inl (by norm_num))⟩

/-! ### `simulate_coin_prices`

The body of the per-coin loop before rounding: price = base + drift + noise,
where `noise = base * random.gauss(0, 0.003)` is modelled by `base *
noise_draw` with the Gaussian draw an oracle input.  The signature takes
only `(step, total_steps)` and the noise draws — there is no surface input,
so by construction no state carries between steps. -/

noncomputable def price_raw (coin : String) (base : ℝ) (step total_steps : ℕ)
    (noise_draw : ℝ) : ℝ :=
  let t : ℝ := (step : ℝ) / ((max (total_steps - 1) 1 : ℕ) : ℝ)
  let drift :=
    if coin = "BTCUSDT" then
      base * (0.06 * Real.sin (2 * Real.pi * t * 1.5) + 0.04 * t
        + 0.02 * Real.sin (2 * Real.pi * t * 4))
    else if coin = "ETHUSDT" then
      base * (0.08 * Real.sin (2 * Real.pi * t * 1.2 + 0.5) + 0.03 * t)
    else if coin = "SOLUSDT" then
      base * (0.12 * Real.sin (2 * Real.pi * t * 2.0 + 1.0) + 0.02 * t)
    else if coin = "BNBUSDT" then
      base * (0.05 * Real.sin (2 * Real.pi * t * 1.0 + 0.3) + 0.01 * t)
    else if coin = "DOGEUSDT" then
      base * (0.18 * Real.sin (2 * Real.pi * t * 2.5 + 2.0) + 0.01 * t)
    else if coin = "XRPUSDT" then
      base * (0.10 * Real.sin (2 * Real.pi * t * 1.8 + 1.5) + 0.02 * t)
    else if coin = "ADAUSDT" then
      base * (0.08 * Real.sin (2 * Real.pi * t * 1.3 + 0.8) + 0.01 * t)
    else
      base * (0.07 * Real.sin (2 * Real.pi * t * 1.5 + 1.2) + 0.02 * t)
  let noise := base * noise_draw
  base + drift + noise

/-- `simulate_coin_prices(step, total_steps)`: one price per base coin,
rounded to 6 decimals for sub-$1 bases and 2 decimals otherwise. -/
noncomputable def simulate_coin_prices (step total_steps : ℕ) (nz : String → ℝ) :
    List (String × ℝ) :=
  COIN_PRICES_BASE.map (fun cb =>
    (cb.1, roundTo (if ((cb.2 : ℝ)) < 1 then 6 else 2)
      (price_raw cb.1 (cb.2 : ℝ) step total_steps (nz cb.1))))

/-- C5.  Each instrument's simulated price is a function of `(step,
total_steps)` and the step-local noise draw alone (the definition takes no
previous surface), and recomputing a price for the same `(step,
total_steps)` with a different noise draw changes it exactly by the noise
term: the drift component `price_raw − base·noise` is identical across
recomputations. -/
theorem simulate_coin_prices_drift_independent_of_noise (step total_steps : ℕ)
    (coin : String) (base : ℝ) (z1 z2 : ℝ) (nz : String → ℝ) :
    price_raw coin base step total_steps z1 - base * z1
      = price_raw coin base step total_steps z2 - base * z2 ∧
    simulate_coin_prices step total_steps nz
      = COIN_PRICES_BASE.map (fun cb =>
          (cb.1, roundTo (if ((cb.2 : ℝ)) < 1 then 6 else 2)
            (price_raw cb.1 (cb.2 : ℝ) step total_steps (nz cb.1)))) := by
  constructor
  · simp only [price_raw]
    ring
  · rfl

/-! ### `generate_equity_curve_v2`

Each branch builds a deterministic target path indexed by
`t = i / (n_points - 1)`, adds per-point Gaussian noise (modelled by the
oracle `noise : ℕ → ℝ`), smooths with `smooth_curve(_, 3)` and rounds to 2
decimals.  For the four named personalities the very first loop iteration
evaluates `t = 0 / (n_points - 1)`, so a call with `n_points = 1` raises
`ZeroDivisionError` in Python; the embedding returns `none` in exactly the
argument configurations where the Python function raises. -/

noncomputable def starTarget (n_points i : ℕ) : ℝ :=
  let t : ℝ := (i : ℝ) / ((n_points : ℝ) - 1)
  let base := 10000 + 1800 * t
  let dip1 := -200 * Real.exp (-((t - 0.30) ^ 2) / (2 * 0.02 ^ 2))
  let dip2 := -150 * Real.exp (-((t - 0.67) ^ 2) / (2 * 0.015 ^ 2))
  let accel := 200 * Real.sin (Real.pi * t)
  base + dip1 + dip2 + accel

noncomputable def conservativeTarget (n_points i : ℕ) : ℝ :=
  let t : ℝ := (i : ℝ) / ((n_points : ℝ) - 1)
  let base := 10000 + 800 * t
  let wave := 50 * Real.sin (2 * Real.pi * t * 3)
  let flat := -80 * Real.exp (-((t - 0.5) ^ 2) / (2 * 0.05 ^ 2))
  base + wave + flat

noncomputable def volatileTarget (n_points i : ℕ) : ℝ :=
  let t : ℝ := (i : ℝ) / ((n_points : ℝ) - 1)
  let base := 10000 + 300 * t
  let swing1 := 800 * Real.sin (2 * Real.pi * t * 1.5)
  let swing2 := 500 * Real.sin (2 * Real.pi * t * 3.2 + 1)
  let swing3 := -600 * Real.exp (-((t - 0.55) ^ 2) / (2 * 0.04 ^ 2))
  let swing4 := 400 * Real.exp (-((t - 0.35) ^ 2) / (2 * 0.03 ^ 2))
  base + swing1 + swing2 + swing3 + swing4

noncomputable def underperformerTarget (n_points i : ℕ) : ℝ :=
  let t : ℝ := (i : ℝ) / ((n_points : ℝ) - 1)
  let base : ℝ := 10000
  let rise := if t < 0.4 then 600 * Real.sin (Real.pi * min (t / 0.4) 1)
    else 600 * Real.exp (-3 * (t - 0.4))
  let crash := if 0.4 < t ∧ t < 0.75 then
      -1200 * max 0 (Real.sin (Real.pi * max 0 (t - 0.4) / 0.35))
    else 0
  let recovery := if t > 0.75 then 300 * max 0 (t - 0.75) / 0.25 else 0
  base + rise + crash + recovery - 100 * t

/-- `generate_equity_curve_v2(n_points, personality)`, with the Gaussian
noise draws (`random.gauss(0, σ)`, σ per archetype) supplied by the oracle
`noise`.  `none` models the Python exceptions: `ZeroDivisionError` for the
four named personalities at `n_points = 1`, and additionally `IndexError`
(`result[-1]` on an empty list) for the underperformer at `n_points = 0`. -/
noncomputable def generate_equity_curve_v2 (n_points : ℕ) (personality : String)
    (noise : ℕ → ℝ) : Option (List ℝ) :=
  if personality = "star" then
    if n_points = 1 then none
    else some ((smooth_curve
      ((List.range n_points).map (fun i => starTarget n_points i + noise i)) 3).map
        (fun v => roundTo 2 v))
  else if personality = "conservative" then
    if n_points = 1 then none
    else some ((smooth_curve
      ((List.range n_points).map (fun i => conservativeTarget n_points i + noise i)) 3).map
        (fun v => roundTo 2 v))
  else if personality = "volatile" then
    if n_points = 1 then none
    else some ((smooth_curve
      ((List.range n_points).map (fun i => volatileTarget n_points i + noise i)) 3).map
        (fun v => roundTo 2 v))
  else if personality = "underperformer" then
    if n_points ≤ 1 then none
    else
      let result := (smooth_curve
        ((List.range n_points).map (fun i => underperformerTarget n_points i + noise i)) 3).map
          (fun v => roundTo 2 v)
      let offset := 9500 - result.getLastD 0
      let n_adjust := n_points / 5
      some ((List.range n_adjust).foldl (fun res i =>
        let idx := n_points - n_adjust + i
        res.set idx (roundTo 2 (res.getD idx 0 + offset * ((i : ℝ) / (n_adjust : ℝ)))))
        result)
  else some (List.replicate n_points INITIAL_BALANCE)

/-- C3 (what the code actually does).  For each of the four named
archetypes, a call with `point_count = 1` evaluates `t = 0 / (1 - 1)` and
raises `ZeroDivisionError` — modelled by `none` — instead of defining
`t = 0` and returning a length-1 curve as the specification requires. -/
theorem equity_curve_point_count_one_divides_by_zero (noise : ℕ → ℝ) :
    generate_equity_curve_v2 1 "star" noise = none ∧
    generate_equity_curve_v2 1 "conservative" noise = none ∧
    generate_equity_curve_v2 1 "volatile" noise = none ∧
    generate_equity_curve_v2 1 "underperformer" noise = none := by
  refine ⟨?_, ?_, ?_, ?_⟩ <;> simp [generate_equity_curve_v2]

/-- C4 (what the code actually does).  With `point_count = 2` and all noise
draws zero, the volatile archetype's curve has first element at least
10368: the term `500·sin(2π·t·3.2 + 1)` does not vanish at `t = 0` (it is
`500·sin 1 ≈ 420.7`), so the curve starts ≈ 4% above the configured initial
balance 10000 — and the same term at `t = 1` leaves the final value ≈ 385
above the declared 10300 target — contradicting the claimed start/end
tolerances. -/
theorem volatile_curve_misses_declared_targets :
    ∃ l, generate_equity_curve_v2 2 "volatile" (fun _ => 0) = some l ∧
      l.length = 2 ∧ 10368 ≤ l.headI := by
  refine ⟨[roundTo 2 (volatileTarget 2 0 + 0), roundTo 2 (volatileTarget 2 1 + 0)], ?_, rfl, ?_⟩
  · unfold generate_equity_curve_v2
    rw [if_neg (by decide : ¬ ("volatile" : String) = "star"),
      if_neg (by decide : ¬ ("volatile" : String) = "conservative"),
      if_pos (rfl : ("volatile" : String) = "volatile"),
      if_neg (by decide : ¬ (2 = 1)),
      show List.range 2 = [0, 1] from rfl, List.map_cons, List.map_cons, List.map_nil,
      smooth_curve_of_no_interior _ 3 (by norm_num), List.map_cons, List.map_cons,
      List.map_nil]
  · have hbound : (10368 : ℝ) + 1 / 200 ≤ volatileTarget 2 0 + 0 := by
      have hsin1 : (3 / 4 : ℝ) < Real.sin 1 := by
        have := Real.sin_gt_sub_cube (x := 1) one_pos le_rfl
        norm_num at this
        linarith
      have hexp3 : Real.exp (-(3025 / 32 : ℝ)) ≤ 1 / 95 := by
        have h1 : (95 : ℝ) ≤ Real.exp (3025 / 32) := by
          have := Real.add_one_le_exp (3025 / 32 : ℝ)
          linarith
        rw [Real.exp_neg, one_div]
        exact inv_anti₀ (by norm_num) h1
      have hexp4 : (0 : ℝ) < Real.exp (-(1225 / 18 : ℝ)) := Real.exp_pos _
      simp only [volatileTarget]
      norm_num
      nlinarith [hsin1, hexp3, hexp4]
    have hround := le_roundTo 2 (volatileTarget 2 0 + 0)
    have hh : (1 : ℝ) / (2 * 10 ^ 2) = 1 / 200 := by norm_num
    rw [hh] at hround
    simp only [List.headI]
    linarith

end MockData
